import Mathlib

/-!
Verification development for the clockshire/gameplanner repository.

The repository consists of a tiny Flask application (src/app) and four
standalone developer scripts (src/local-data) that populate, list and delete
sample venues, rooms and events through a REST API or directly through the
table store.  This file embeds the data model and the operations of those
scripts as executable Lean definitions and proves the specification claims
about them.

Conventions of the embedding:
  * The remote datastore is a record of lists (venues, rooms, events,
    event-room assignments) plus a fresh-id counter `nextId`; the server
    allocates ids by handing out `nextId` and bumping it, which models any
    injective id generator.
  * Mutating HTTP calls and the server probe are recorded in a call trace
    `calls`; list reads (GET) are pure projections of the state, since no
    claim talks about read calls.
  * The script operations are embedded in their success-path semantics: a
    create/delete that the server accepts takes effect.  The error mapping of
    the client methods is embedded separately (see `HttpResult` below), as
    the error-handling claims are about that boundary.
  * Payload fields that no claim mentions (addresses, descriptions, phone
    numbers, capacities, times) are omitted from the records.
-/

namespace GamePlanner

/-- One recorded wire call of the populate / delete scripts
(populate-dev-data.py, delete-all.py). -/
inductive Call where
  | probe
  | authSignup
  | authLogin
  | createVenueCall (name : String)
  | createRoomCall (venueId : Nat) (name : String)
  | createEventCall (venueId : Nat) (name : String)
  | createEventRoomCall (eventId : Nat) (roomId : Nat)
  | deleteVenueCall (id : Nat)
  | deleteRoomCall (id : Nat)
  | deleteEventCall (id : Nat)
deriving DecidableEq

/-- Venue record: identity and the name the seed script matches on
(populate-dev-data.py uses the venueName field). -/
structure Venue where
  venueId : Nat
  venueName : String
deriving DecidableEq

/-- Room record: identity plus the venue it belongs to. -/
structure Room where
  roomId : Nat
  venueId : Nat
  roomName : String
deriving DecidableEq

/-- Event record: identity plus the venue it references. -/
structure Event where
  eventId : Nat
  venueId : Nat
  eventName : String
deriving DecidableEq

/-- Event-room assignment record (POST /event-rooms). -/
structure EventRoom where
  eventId : Nat
  roomId : Nat
deriving DecidableEq

/-- The remote datastore as seen through the API, plus the ghost call trace
and the fresh id counter of the server. -/
structure DB where
  venues : List Venue
  rooms : List Room
  events : List Event
  eventRooms : List EventRoom
  nextId : Nat
  calls : List Call
deriving DecidableEq

/-- The empty datastore. -/
def dbEmpty : DB := ⟨[], [], [], [], 0, []⟩

/-- Python str.lower, embedded structurally over the character list so that
it evaluates in the kernel. -/
def strLower (s : String) : String :=
  String.mk (s.data.map Char.toLower)

/-- Python str.strip, embedded structurally over the character list. -/
def strStrip (s : String) : String :=
  String.mk
    (((s.data.dropWhile Char.isWhitespace).reverse.dropWhile
        Char.isWhitespace).reverse)

/-! ### Entity API client, success-path state semantics
(populate-dev-data.py lines 91-260) -/

/-- DELETE /venues/id (delete_entity with entity_type venue): the record with
that id is removed and the call is recorded. -/
def deleteEntityVenue (vid : Nat) (db : DB) : DB :=
  { db with venues := db.venues.filter (fun v => v.venueId != vid),
            calls := db.calls ++ [Call.deleteVenueCall vid] }

/-- DELETE /rooms/id (delete_entity with entity_type room). -/
def deleteEntityRoom (rid : Nat) (db : DB) : DB :=
  { db with rooms := db.rooms.filter (fun r => r.roomId != rid),
            calls := db.calls ++ [Call.deleteRoomCall rid] }

/-- DELETE /events/id (delete_entity with entity_type event). -/
def deleteEntityEvent (eid : Nat) (db : DB) : DB :=
  { db with events := db.events.filter (fun e => e.eventId != eid),
            calls := db.calls ++ [Call.deleteEventCall eid] }

/-- POST /venues (create_venue, lines 173-190): the server allocates a fresh
id, stores the record and returns the id. -/
def createVenue (name : String) (db : DB) : Nat × DB :=
  (db.nextId,
   { db with venues := db.venues ++ [⟨db.nextId, name⟩],
             nextId := db.nextId + 1,
             calls := db.calls ++ [Call.createVenueCall name] })

/-- POST /rooms (create_room, lines 192-211). -/
def createRoom (vid : Nat) (name : String) (db : DB) : Nat × DB :=
  (db.nextId,
   { db with rooms := db.rooms ++ [⟨db.nextId, vid, name⟩],
             nextId := db.nextId + 1,
             calls := db.calls ++ [Call.createRoomCall vid name] })

/-- POST /events (create_event, lines 213-232). -/
def createEvent (vid : Nat) (name : String) (db : DB) : Nat × DB :=
  (db.nextId,
   { db with events := db.events ++ [⟨db.nextId, vid, name⟩],
             nextId := db.nextId + 1,
             calls := db.calls ++ [Call.createEventCall vid name] })

/-- POST /event-rooms (assign_room_to_event, lines 234-260). -/
def createEventRoom (eid rid : Nat) (db : DB) : DB :=
  { db with eventRooms := db.eventRooms ++ [⟨eid, rid⟩],
            calls := db.calls ++ [Call.createEventRoomCall eid rid] }

/-- find_venue_by_name (lines 124-130): first venue, in listing order, whose
venueName equals the given name. -/
def findVenueByName (name : String) (db : DB) : Option Venue :=
  db.venues.find? (fun v => v.venueName == name)

/-- cleanup_venue_data (lines 144-171): delete every event whose venueId
matches, then every room whose venueId matches, then the venue itself.  Each
loop iterates over the list fetched at the start of that loop. -/
def cleanupVenueData (vid : Nat) (db : DB) : DB :=
  let db1 := db.events.foldl
    (fun d e => if e.venueId == vid then deleteEntityEvent e.eventId d else d) db
  let db2 := db1.rooms.foldl
    (fun d r => if r.venueId == vid then deleteEntityRoom r.roomId d else d) db1
  deleteEntityVenue vid db2

/-! ### Seed catalog (populate-dev-data.py lines 282-466) -/

def monkeyPuzzleVenue : String := "Monkey Puzzle (Farnborough)"

def doubleTreeVenue : String := "DoubleTree by Hilton Southampton"

/-- Names of the hard-coded catalog venues, in creation order. -/
def venuesData : List String := [monkeyPuzzleVenue, doubleTreeVenue]

/-- Room names per catalog venue, in creation order (rooms_data). -/
def roomsData : List (String × List String) :=
  [(monkeyPuzzleVenue, ["Main Area", "Back Room"]),
   (doubleTreeVenue,
    ["Chilworth Suite", "Garden Suite", "Adams Suite", "Austen Suite",
     "Hardy Suite", "The Boardroom", "Frome Suite"])]

/-- Event names with the catalog venue they reference, in creation order
(events_data). -/
def eventsData : List (String × String) :=
  [("Board Game Championship - Monkey Puzzle", monkeyPuzzleVenue),
   ("Board Game Night - Monkey Puzzle", monkeyPuzzleVenue),
   ("Clocktower (Beginner Friendly)", monkeyPuzzleVenue),
   ("Clocktower (Intermediate+)", monkeyPuzzleVenue),
   ("Clockshire \x2725", doubleTreeVenue),
   ("Clockshire \x2726", doubleTreeVenue)]

/-! ### Seed orchestrator (populate_data, lines 262-562) -/

/-- Body of the venue loop (lines 472-485): look the catalog venue up by
name, clean up and delete it when found, then recreate it.  Returns the new
state and the created_venues entry. -/
def processVenue (db : DB) (name : String) : DB × (String × Nat) :=
  let db1 :=
    match findVenueByName name db with
    | some v => cleanupVenueData v.venueId db
    | none => db
  let c := createVenue name db1
  (c.2, (name, c.1))

/-- The venue loop over the catalog, accumulating created_venues. -/
def createVenuesLoop (db : DB) : DB × List (String × Nat) :=
  venuesData.foldl
    (fun acc name =>
      let p := processVenue acc.1 name
      (p.1, acc.2 ++ [p.2]))
    (db, [])

/-- The room loop (lines 487-510): for each catalog venue that was created,
create its configured rooms, accumulating created_rooms entries
(roomId, roomName, venueName). -/
def createRoomsLoop (db : DB) (createdVenues : List (String × Nat)) :
    DB × List (Nat × String × String) :=
  roomsData.foldl
    (fun acc p =>
      match createdVenues.lookup p.1 with
      | none => acc
      | some vid =>
        p.2.foldl
          (fun acc2 rn =>
            let c := createRoom vid rn acc2.1
            (c.2, acc2.2 ++ [(c.1, rn, p.1)]))
          acc)
    (db, [])

/-- Room assignment for one event (lines 528-544): every created room whose
venueName matches is assigned to the event. -/
def assignRoomsToEvent (eid : Nat) (createdRooms : List (Nat × String × String))
    (venueName : String) (db : DB) : DB :=
  createdRooms.foldl
    (fun d r => if r.2.2 == venueName then createEventRoom eid r.1 d else d) db

/-- The event loop (lines 512-544): create each catalog event whose venue was
created; for Monkey Puzzle events, assign all created rooms of that venue. -/
def createEventsLoop (db : DB) (createdVenues : List (String × Nat))
    (createdRooms : List (Nat × String × String)) : DB × List Nat :=
  eventsData.foldl
    (fun acc p =>
      match createdVenues.lookup p.2 with
      | none => acc
      | some vid =>
        let c := createEvent vid p.1 acc.1
        let db3 :=
          if p.2 == monkeyPuzzleVenue then
            assignRoomsToEvent c.1 createdRooms p.2 c.2
          else c.2
        (db3, acc.2 ++ [c.1]))
    (db, [])

/-- populate_data after the server and authentication checks (lines 281-562),
success-path semantics. -/
def populateData (db : DB) : DB :=
  let v := createVenuesLoop db
  let r := createRoomsLoop v.1 v.2
  (createEventsLoop r.1 v.2 r.2).1

/-- Result of running a script: the process exit code and the final store. -/
structure RunResult where
  exitCode : Nat
  db : DB
deriving DecidableEq

/-- populate_data including the server probe and authentication gates
(lines 262-279): a failed probe or a failed authentication exits with
sys.exit(1) before any entity call. -/
def populateRun (serverUp authOk : Bool) (db : DB) : RunResult :=
  let db0 := { db with calls := db.calls ++ [Call.probe] }
  if !serverUp then ⟨1, db0⟩
  else
    let db1 := { db0 with calls := db0.calls ++ [Call.authSignup, Call.authLogin] }
    if !authOk then ⟨1, db1⟩
    else ⟨0, populateData db1⟩

/-! ### Cleanup orchestrator (delete-all.py) -/

/-- The three entity kinds handled by delete-all.py. -/
inductive EntityKind where
  | event
  | room
  | venue
deriving DecidableEq

/-- Position of a kind in the required deletion order. -/
def kindRank : EntityKind → Nat
  | EntityKind.event => 0
  | EntityKind.room => 1
  | EntityKind.venue => 2

/-- Ids returned by get_all_entities for a kind (delete-all.py lines 31-40). -/
def entityIds (k : EntityKind) (db : DB) : List Nat :=
  match k with
  | EntityKind.event => db.events.map (fun e => e.eventId)
  | EntityKind.room => db.rooms.map (fun r => r.roomId)
  | EntityKind.venue => db.venues.map (fun v => v.venueId)

/-- delete_entity of delete-all.py (lines 42-52), dispatched on the kind. -/
def deleteEntityK (k : EntityKind) (id : Nat) (db : DB) : DB :=
  match k with
  | EntityKind.event => deleteEntityEvent id db
  | EntityKind.room => deleteEntityRoom id db
  | EntityKind.venue => deleteEntityVenue id db

/-- delete_all_entities (lines 54-79): fetch the list once, then delete each
entity of the snapshot in order. -/
def deleteAllEntities (k : EntityKind) (db : DB) : DB :=
  (entityIds k db).foldl (fun d id => deleteEntityK k id d) db

/-- cleanup_all_data (lines 81-108): probe the server, abort with exit code 1
when it is down, otherwise delete all events, then all rooms, then all
venues. -/
def cleanupAllData (serverUp : Bool) (db : DB) : RunResult :=
  let db0 := { db with calls := db.calls ++ [Call.probe] }
  if !serverUp then ⟨1, db0⟩
  else
    let db1 := deleteAllEntities EntityKind.event db0
    let db2 := deleteAllEntities EntityKind.room db1
    let db3 := deleteAllEntities EntityKind.venue db2
    ⟨0, db3⟩

/-- main of delete-all.py (lines 111-129): ask for confirmation first; any
answer whose lowercase form is neither yes nor y cancels with sys.exit(0)
before anything is done. -/
def deleteAllMain (answer : String) (serverUp : Bool) (db : DB) : RunResult :=
  if strLower answer == "yes" || strLower answer == "y" then
    cleanupAllData serverUp db
  else ⟨0, db⟩

/-! ### delete-specific-events.py -/

/-- The hard-coded event ids of delete-specific-events.py (lines 119-122). -/
def eventIdsToDelete : List String :=
  ["33aee519-ca06-46ea-97ae-3c786ac6df9e",
   "f7d34323-18c1-4bd6-8fef-b3eded732c1a"]

/-- delete_event (lines 23-63): get_item first; only when the item exists is
a delete_item call issued.  Returns the new table and the issued delete
calls. -/
def deleteEventItem (tbl : List String) (id : String) :
    List String × List String :=
  if tbl.contains id then (tbl.filter (fun x => x != id), [id]) else (tbl, [])

/-- Result of a delete-specific-events run: exit code, final events table and
the issued delete_item calls. -/
structure SpecificRun where
  exitCode : Nat
  table : List String
  deletes : List String
deriving DecidableEq

/-- main of delete-specific-events.py (lines 116-153): confirmation answers
other than yes (after lower and strip) cancel by returning normally, which is
exit status 0; otherwise delete_events runs over the hard-coded ids. -/
def deleteSpecificRun (answer : String) (tbl : List String) : SpecificRun :=
  if strStrip (strLower answer) == "yes" then
    let r := eventIdsToDelete.foldl
      (fun (acc : List String × List String) id =>
        let d := deleteEventItem acc.1 id
        (d.1, acc.2 ++ d.2))
      (tbl, [])
    ⟨0, r.1, r.2⟩
  else ⟨0, tbl, []⟩

/-! ### Relative date computation (populate-dev-data.py lines 358-372)

Python dates are embedded as ordinal day numbers with day 0 a Monday, so
weekday d = d % 7 matches date.weekday() (Monday = 0 .. Sunday = 6) and
Tuesday is weekday 1.  The computation only depends on the first day of next
month, so it is parametrized by that day; every value of today determines
some such day. -/

/-- date.weekday() of an ordinal day. -/
def weekdayOf (d : Nat) : Nat := d % 7

/-- first_tuesday (line 368): next_month + relativedelta(days =
(1 - next_month.weekday()) % 7), with the nonnegative Python modulo. -/
def firstTuesdayFrom (nextMonth : Nat) : Nat :=
  nextMonth + (((1 - (weekdayOf nextMonth : Int)) % 7).toNat)

/-- future_next_month_2nd_tuesday (line 369): first_tuesday +
relativedelta(weeks = 1). -/
def secondTuesdayFrom (nextMonth : Nat) : Nat := firstTuesdayFrom nextMonth + 7

/-- future_next_month_4th_tuesday (line 372): first_tuesday +
relativedelta(weeks = 3). -/
def fourthTuesdayFrom (nextMonth : Nat) : Nat := firstTuesdayFrom nextMonth + 21

/-! ### Reporting utility pagination (list-venues.py) -/

/-- One scan response: the items of the page and the optional
LastEvaluatedKey continuation marker. -/
structure ScanPage (α : Type) where
  items : List α
  lastEvaluatedKey : Option Nat
deriving DecidableEq

/-- The scan loop shared by get_all_venues (lines 55-84), get_all_events
(lines 86-115) and get_all_users (lines 133-153): take the first response,
then keep scanning with ExclusiveStartKey while the previous response
carried a LastEvaluatedKey, extending the item list with each page. -/
def scanFollow {α : Type} : List (ScanPage α) → List α
  | [] => []
  | p :: rest =>
    p.items ++
      (match p.lastEvaluatedKey with
       | some _ => scanFollow rest
       | none => [])

/-- Raw user item of the users table; only userId matters to the claims. -/
structure UserItem where
  userId : Option String
deriving DecidableEq

/-- The dictionary construction of get_all_users (lines 155-161): items
without a userId are skipped, later items with the same userId overwrite in
place (Python dict assignment keeps the original position). -/
def usersDictFrom (items : List UserItem) : List (String × UserItem) :=
  items.foldl
    (fun m u =>
      match u.userId with
      | some uid =>
        if m.any (fun p => p.1 == uid) then
          m.map (fun p => if p.1 == uid then (uid, u) else p)
        else m ++ [(uid, u)]
      | none => m)
    []

/-- get_all_venues of list-venues.py on a sequence of scan responses. -/
def getAllVenuesScan (pages : List (ScanPage Venue)) : List Venue :=
  scanFollow pages

/-- get_all_events of list-venues.py on a sequence of scan responses. -/
def getAllEventsScan (pages : List (ScanPage Event)) : List Event :=
  scanFollow pages

/-- get_all_users of list-venues.py on a sequence of scan responses. -/
def getAllUsersScan (pages : List (ScanPage UserItem)) : List (String × UserItem) :=
  usersDictFrom (scanFollow pages)

/-! ### Entity API client error mapping (populate-dev-data.py lines 91-260)

Each client method wraps its HTTP interaction in try/except
requests.RequestException.  A transport failure raises inside the request
call; a 4xx/5xx status raises HTTPError (a RequestException) from
raise_for_status.  Both are caught and mapped to the failure value. -/

/-- Outcome of one HTTP interaction as seen by a client method. -/
inductive HttpResult (α : Type) where
  | transportError (msg : String)
  | httpError (status : Nat)
  | ok (body : α)

/-- get_all_venues (lines 91-100): failures map to the empty list, success
returns the data envelope with [] as default. -/
def getAllVenuesClient (r : HttpResult (Option (List Venue))) : List Venue :=
  match r with
  | HttpResult.transportError _ => []
  | HttpResult.httpError _ => []
  | HttpResult.ok body => body.getD []

/-- create_venue (lines 173-190): failures and a missing or empty venueId map
to none, success returns the id. -/
def createVenueClient (r : HttpResult (Option String)) : Option String :=
  match r with
  | HttpResult.transportError _ => none
  | HttpResult.httpError _ => none
  | HttpResult.ok body =>
    match body with
    | some vid => if vid == "" then none else some vid
    | none => none

/-- delete_entity (lines 132-142): failures map to false, success to true. -/
def deleteEntityClient (r : HttpResult Unit) : Bool :=
  match r with
  | HttpResult.transportError _ => false
  | HttpResult.httpError _ => false
  | HttpResult.ok _ => true

/-- find_venue_by_name over an explicit venue list (lines 124-130). -/
def findVenueByNameFrom (venues : List Venue) (name : String) : Option Venue :=
  venues.find? (fun v => v.venueName == name)

/-- find_venue_by_name composed with the client fetch: a failed fetch yields
the empty list and therefore none. -/
def findVenueByNameClient (r : HttpResult (Option (List Venue)))
    (name : String) : Option Venue :=
  findVenueByNameFrom (getAllVenuesClient r) name

/-! ### Flask application (src/app) -/

/-- Handlers declared on the blueprint main in src/app/routes.py. -/
inductive RouteHandler where
  | index
  | healthCheck
deriving DecidableEq

/-- Routes declared on blueprint main (routes.py lines 10-32). -/
def mainBlueprintRoutes : List (String × RouteHandler) :=
  [("/", RouteHandler.index), ("/health", RouteHandler.healthCheck)]

/-- create_app (src/app/NL__init__.py lines 11-27) registers exactly the
blueprint main, so the application route table is the blueprint route
table. -/
def appRoutes : List (String × RouteHandler) := mainBlueprintRoutes

/-- Body returned by health_check (routes.py lines 24-32). -/
def healthCheckBody (_req : Unit) : List (String × String) :=
  [("status", "healthy"), ("message", "Scheduler app is running")]

/-- Module-level imports of src/app/routes.py (lines 7-8): the file imports
the name str from the typing module. -/
def routesPyImports : List (String × String) :=
  [("flask", "Blueprint"), ("flask", "render_template"), ("typing", "str")]

/-! ### Derived notions used by the claims -/

/-- Venue, room and event counts of a store. -/
def dbCounts (db : DB) : Nat × Nat × Nat :=
  (db.venues.length, db.rooms.length, db.events.length)

/-- Venue, room and event counts of a core tuple. -/
def coreCounts (t : List Venue × List Room × List Event × Nat) :
    Nat × Nat × Nat :=
  (t.1.length, t.2.1.length, t.2.2.1.length)

/-- Classification of a recorded call as an entity delete. -/
def deleteKindOf : Call → Option EntityKind
  | Call.deleteEventCall _ => some EntityKind.event
  | Call.deleteRoomCall _ => some EntityKind.room
  | Call.deleteVenueCall _ => some EntityKind.venue
  | _ => none

/-- Calls that create or delete a venue, room, event or assignment. -/
def isEntityWrite : Call → Bool
  | Call.probe => false
  | Call.authSignup => false
  | Call.authLogin => false
  | _ => true

/-- The delete call issued by delete_entity for a kind and id. -/
def deleteCallOf (k : EntityKind) (id : Nat) : Call :=
  match k with
  | EntityKind.event => Call.deleteEventCall id
  | EntityKind.room => Call.deleteRoomCall id
  | EntityKind.venue => Call.deleteVenueCall id

/-- The venue, room and event lists of a store together with the id counter:
the part of the state the seed orchestrator reads and the counting claims
talk about. -/
@[reducible] def dbCore (db : DB) : List Venue × List Room × List Event × Nat :=
  (db.venues, db.rooms, db.events, db.nextId)

/-- The venues created by one seed run when the id counter starts at n. -/
def newVenues (n : Nat) : List Venue :=
  [⟨n, monkeyPuzzleVenue⟩, ⟨n + 1, doubleTreeVenue⟩]

/-- The rooms created by one seed run when the id counter starts at n. -/
def newRooms (n : Nat) : List Room :=
  [⟨n + 2, n, "Main Area"⟩, ⟨n + 3, n, "Back Room"⟩,
   ⟨n + 4, n + 1, "Chilworth Suite"⟩, ⟨n + 5, n + 1, "Garden Suite"⟩,
   ⟨n + 6, n + 1, "Adams Suite"⟩, ⟨n + 7, n + 1, "Austen Suite"⟩,
   ⟨n + 8, n + 1, "Hardy Suite"⟩, ⟨n + 9, n + 1, "The Boardroom"⟩,
   ⟨n + 10, n + 1, "Frome Suite"⟩]

/-- The events created by one seed run when the id counter starts at n. -/
def newEvents (n : Nat) : List Event :=
  [⟨n + 11, n, "Board Game Championship - Monkey Puzzle"⟩,
   ⟨n + 12, n, "Board Game Night - Monkey Puzzle"⟩,
   ⟨n + 13, n, "Clocktower (Beginner Friendly)"⟩,
   ⟨n + 14, n, "Clocktower (Intermediate+)"⟩,
   ⟨n + 15, n + 1, "Clockshire \x2725"⟩,
   ⟨n + 16, n + 1, "Clockshire \x2726"⟩]

/-- Membership of an id in the venue found for a name, as a Bool. -/
def optIdIs (o : Option Venue) (x : Nat) : Bool :=
  match o with
  | some v => x == v.venueId
  | none => false

/-- Ids of the catalog venues found by name in a store, in catalog order. -/
def foundIds (db : DB) : List Nat :=
  ((findVenueByName monkeyPuzzleVenue db).toList ++
   (findVenueByName doubleTreeVenue db).toList).map (fun v => v.venueId)

/-- Well-formed store: ids are pairwise distinct, every stored id and every
venue reference is below the fresh id counter, and each catalog venue name
matches at most one stored venue.  This is the standing shape of a store
whose records were produced through the API. -/
def WFdb (db : DB) : Prop :=
  (db.venues.map (fun v => v.venueId)).Nodup ∧
  (db.rooms.map (fun r => r.roomId)).Nodup ∧
  (db.events.map (fun e => e.eventId)).Nodup ∧
  (∀ v ∈ db.venues, v.venueId < db.nextId) ∧
  (∀ r ∈ db.rooms, r.roomId < db.nextId ∧ r.venueId < db.nextId) ∧
  (∀ e ∈ db.events, e.eventId < db.nextId ∧ e.venueId < db.nextId) ∧
  (∀ name ∈ venuesData,
    (db.venues.filter (fun v => v.venueName == name)).length ≤ 1)

instance (db : DB) : Decidable (WFdb db) := by
  unfold WFdb; infer_instance

/-- Event names of the catalog for one venue name, in creation order. -/
def eventNamesFor (name : String) : List String :=
  (eventsData.filter (fun p => p.2 == name)).map (fun p => p.1)

/-- Exactly one instance of each catalog venue exists in the core tuple, and
the rooms and events referencing it are exactly the catalog ones, by name and
in catalog order. -/
def catalogOnceCore (t : List Venue × List Room × List Event × Nat) : Bool :=
  venuesData.all (fun name =>
    match t.1.filter (fun v => v.venueName == name) with
    | [v] =>
      ((t.2.1.filter (fun r => r.venueId == v.venueId)).map
          (fun r => r.roomName) == (roomsData.lookup name).getD []) &&
      ((t.2.2.1.filter (fun e => e.venueId == v.venueId)).map
          (fun e => e.eventName) == eventNamesFor name)
    | _ => false)

/-- Exactly one instance of each catalog venue, room and event exists in a
store. -/
def catalogOnce (db : DB) : Bool :=
  catalogOnceCore (dbCore db)

/-- Shape of a store right after a successful seed run: stale records V, R,
E (none of them named like a catalog venue, all ids and references below n)
followed by the fresh catalog records created from id n, with the counter at
n + 17. -/
def StaleShape (db : DB) (V : List Venue) (R : List Room) (E : List Event)
    (n : Nat) : Prop :=
  db.venues = V ++ newVenues n ∧
  db.rooms = R ++ newRooms n ∧
  db.events = E ++ newEvents n ∧
  db.nextId = n + 17 ∧
  (∀ v ∈ V, (v.venueName == monkeyPuzzleVenue) = false ∧
    (v.venueName == doubleTreeVenue) = false) ∧
  (∀ v ∈ V, v.venueId < n) ∧
  (∀ r ∈ R, r.roomId < n ∧ r.venueId < n) ∧
  (∀ e ∈ E, e.eventId < n ∧ e.venueId < n) ∧
  (V.map (fun v => v.venueId)).Nodup ∧
  (R.map (fun r => r.roomId)).Nodup ∧
  (E.map (fun e => e.eventId)).Nodup

/-!
## Theorems
-/

/-- Claim C3 as stated is false: the computed 2nd and 4th Tuesday of next
month are exactly 14 days apart, never 28; shown at the concrete next-month
day 0. -/
theorem tuesdaySpacing_counterexample :
    fourthTuesdayFrom 0 - secondTuesdayFrom 0 = 14 ∧
    ¬(fourthTuesdayFrom 0 - secondTuesdayFrom 0 = 28) := by
  decide

/-- Claim C3 (amended): for every value of the first day of next month (and
hence for every value of today), the computed 2nd and 4th Tuesday of next
month both fall on weekday Tuesday, are 7 and 21 days after the first
Tuesday, and are exactly 14 days apart. -/
theorem tuesdaySpacing (m : Nat) :
    weekdayOf (secondTuesdayFrom m) = 1 ∧
    weekdayOf (fourthTuesdayFrom m) = 1 ∧
    secondTuesdayFrom m - firstTuesdayFrom m = 7 ∧
    fourthTuesdayFrom m - firstTuesdayFrom m = 21 ∧
    fourthTuesdayFrom m - secondTuesdayFrom m = 14 := by
  unfold secondTuesdayFrom fourthTuesdayFrom firstTuesdayFrom weekdayOf
  refine ⟨?_, ?_, ?_, ?_, ?_⟩ <;> omega

/-- Claim C4 as stated is false: cancelling either destructive script exits
with status zero, not nonzero.  Answering no to delete-all.py hits
sys.exit(0), and answering no to delete-specific-events.py returns normally
from main. -/
theorem cancelStatus_counterexample :
    (deleteAllMain "no" true dbEmpty).exitCode = 0 ∧
    (deleteSpecificRun "no" ["e1"]).exitCode = 0 := by
  decide

/-- Claim C4 (amended): each destructive script asks for confirmation before
issuing any delete, and each cancels independently under its own condition:
any answer whose lowercase form is neither yes nor y makes delete-all.py
exit with status zero without touching the store, and any answer whose
lowercased stripped form is not yes makes delete-specific-events.py exit
with status zero without issuing any delete call. -/
theorem cancelNoDeletes (answer : String) (serverUp : Bool) (db : DB)
    (tbl : List String) :
    (strLower answer ≠ "yes" → strLower answer ≠ "y" →
      (deleteAllMain answer serverUp db).exitCode = 0 ∧
      (deleteAllMain answer serverUp db).db = db) ∧
    (strStrip (strLower answer) ≠ "yes" →
      deleteSpecificRun answer tbl = ⟨0, tbl, []⟩) := by
  constructor
  · intro h1 h2
    have e1 : (strLower answer == "yes") = false := by
      simpa using h1
    have e2 : (strLower answer == "y") = false := by
      simpa using h2
    unfold deleteAllMain
    rw [e1, e2]
    exact ⟨rfl, rfl⟩
  · intro h3
    have e3 : (strStrip (strLower answer) == "yes") = false := by
      simpa using h3
    unfold deleteSpecificRun
    rw [e3]
    rfl

/-- Witness for the amended claim C4 at the two answers on which the
cancellation conditions of the scripts differ: the answer yes followed by a
space cancels delete-all.py, and the answer y cancels
delete-specific-events.py. -/
theorem cancelNoDeletes_witness :
    ((deleteAllMain "yes " true dbEmpty).exitCode = 0 ∧
     (deleteAllMain "yes " true dbEmpty).db = dbEmpty) ∧
    deleteSpecificRun "y" ["e1"] = ⟨0, ["e1"], []⟩ :=
  ⟨(cancelNoDeletes "yes " true dbEmpty []).1 (by decide) (by decide),
   (cancelNoDeletes "y" true dbEmpty ["e1"]).2 (by decide)⟩

/-- Claim C5: when the server probe fails, both the populate run and the
cleanup run exit with status 1 without having issued any create or delete
call. -/
theorem serverProbeGate (db : DB) (authOk : Bool) (h : db.calls = []) :
    (populateRun false authOk db).exitCode = 1 ∧
    (populateRun false authOk db).db.calls.filter isEntityWrite = [] ∧
    (cleanupAllData false db).exitCode = 1 ∧
    (cleanupAllData false db).db.calls.filter isEntityWrite = [] := by
  unfold populateRun cleanupAllData
  simp [h, isEntityWrite]

/-- Witness for claim C5 at the empty store. -/
theorem serverProbeGate_witness :
    (populateRun false true dbEmpty).exitCode = 1 ∧
    (populateRun false true dbEmpty).db.calls.filter isEntityWrite = [] ∧
    (cleanupAllData false dbEmpty).exitCode = 1 ∧
    (cleanupAllData false dbEmpty).db.calls.filter isEntityWrite = [] :=
  serverProbeGate dbEmpty true rfl

/-- Claim C7: every client method maps a transport failure, and the
HTTPError raised by raise_for_status on an error status, to its failure
signal instead of propagating: the empty list for the list method, none for
the create method, false for the delete method. -/
theorem clientFailureSignals (msg : String) (status : Nat) :
    getAllVenuesClient (HttpResult.transportError msg) = [] ∧
    getAllVenuesClient (HttpResult.httpError status) = [] ∧
    createVenueClient (HttpResult.transportError msg) = none ∧
    createVenueClient (HttpResult.httpError status) = none ∧
    deleteEntityClient (HttpResult.transportError msg) = false ∧
    deleteEntityClient (HttpResult.httpError status) = false :=
  ⟨rfl, rfl, rfl, rfl, rfl, rfl⟩

/-- Claim C9: the declared route table of the application has exactly the
two paths / and /health, the health handler returns the fixed JSON payload
for every request, and routes.py imports the name str from typing, which is
the failing module-level statement at startup. -/
theorem appRoutesDeclared :
    appRoutes.map (fun p => p.1) = ["/", "/health"] ∧
    (∀ u : Unit, healthCheckBody u =
      [("status", "healthy"), ("message", "Scheduler app is running")]) ∧
    ("typing", "str") ∈ routesPyImports := by
  refine ⟨rfl, fun _ => rfl, ?_⟩
  simp [routesPyImports]

/-- Claim C10: find_venue_by_name returns the first record in listing order
whose venueName equals the given name, returns none exactly when no record
matches, and returns none on a failed fetch, which therefore looks the same
as the venue being absent. -/
theorem findVenueFirstMatch (vs : List Venue) (name : String) :
    (∀ v, findVenueByNameFrom vs name = some v →
      v.venueName = name ∧
      ∃ pre post, vs = pre ++ v :: post ∧
        ∀ w ∈ pre, w.venueName ≠ name) ∧
    (findVenueByNameFrom vs name = none ↔ ∀ v ∈ vs, v.venueName ≠ name) ∧
    (∀ msg, findVenueByNameClient (HttpResult.transportError msg) name = none) := by
  refine ⟨?_, ?_, fun _ => rfl⟩
  · intro v hv
    induction vs with
    | nil => simp [findVenueByNameFrom] at hv
    | cons a l ih =>
      by_cases ha : a.venueName = name
      · have hb : (a.venueName == name) = true := by simpa using ha
        have : findVenueByNameFrom (a :: l) name = some a := by
          simp [findVenueByNameFrom, List.find?, hb]
        rw [this] at hv
        obtain rfl : a = v := by injection hv
        exact ⟨ha, [], l, rfl, by simp⟩
      · have hb : (a.venueName == name) = false := by simpa using ha
        have hstep : findVenueByNameFrom (a :: l) name = findVenueByNameFrom l name := by
          simp [findVenueByNameFrom, List.find?, hb]
        rw [hstep] at hv
        obtain ⟨h1, pre, post, h2, h3⟩ := ih hv
        refine ⟨h1, a :: pre, post, by simp [h2], ?_⟩
        intro w hw
        rcases List.mem_cons.mp hw with rfl | hw2
        · exact ha
        · exact h3 w hw2
  · constructor
    · intro h v hv
      have := List.find?_eq_none.mp h v hv
      simpa using this
    · intro h
      apply List.find?_eq_none.mpr
      intro v hv
      simpa using h v hv

/-- Witness for claim C10 applied at a concrete two-element listing. -/
theorem findVenueFirstMatch_witness :
    (⟨2, "B"⟩ : Venue).venueName = "B" :=
  ((findVenueFirstMatch [⟨1, "A"⟩, ⟨2, "B"⟩] "B").1 ⟨2, "B"⟩ (by decide)).1

/-- The scan loop collects exactly the concatenation of all pages when every
response before the last carries a continuation key. -/
theorem scanFollow_eq_flatten {α : Type} (ps : List (ScanPage α))
    (h : ∀ q ∈ ps.dropLast, q.lastEvaluatedKey.isSome = true) :
    scanFollow ps = (ps.map (fun p => p.items)).flatten := by
  induction ps with
  | nil => rfl
  | cons p rest ih =>
    cases rest with
    | nil =>
      cases hk : p.lastEvaluatedKey <;> simp [scanFollow, hk]
    | cons q rest2 =>
      have hp : p.lastEvaluatedKey.isSome = true := by
        apply h
        simp [List.dropLast]
      obtain ⟨k, hk⟩ := Option.isSome_iff_exists.mp hp
      have hrest : ∀ r ∈ (q :: rest2).dropLast, r.lastEvaluatedKey.isSome = true := by
        intro r hr
        exact h r (by simp [List.dropLast, hr])
      have step : scanFollow (p :: q :: rest2) = p.items ++ scanFollow (q :: rest2) := by
        show p.items ++
            (match p.lastEvaluatedKey with
             | some _ => scanFollow (q :: rest2)
             | none => ([] : List α)) = p.items ++ scanFollow (q :: rest2)
        rw [hk]
      rw [step, ih hrest]
      simp

/-- Claim C6: each table reader of the reporting utility follows the
continuation key until no further page is indicated, returning the
concatenation of all pages; when the pages are jointly duplicate-free so is
the result, and the user reader builds its dictionary from the union of all
pages. -/
theorem scanPaginationUnion (pv : List (ScanPage Venue))
    (pe : List (ScanPage Event)) (pu : List (ScanPage UserItem))
    (hv : ∀ q ∈ pv.dropLast, q.lastEvaluatedKey.isSome = true)
    (he : ∀ q ∈ pe.dropLast, q.lastEvaluatedKey.isSome = true)
    (hu : ∀ q ∈ pu.dropLast, q.lastEvaluatedKey.isSome = true) :
    getAllVenuesScan pv = (pv.map (fun p => p.items)).flatten ∧
    getAllEventsScan pe = (pe.map (fun p => p.items)).flatten ∧
    getAllUsersScan pu = usersDictFrom ((pu.map (fun p => p.items)).flatten) ∧
    (((pv.map (fun p => p.items)).flatten).Nodup → (getAllVenuesScan pv).Nodup) ∧
    (((pe.map (fun p => p.items)).flatten).Nodup → (getAllEventsScan pe).Nodup) := by
  have h1 := scanFollow_eq_flatten pv hv
  have h2 := scanFollow_eq_flatten pe he
  have h3 := scanFollow_eq_flatten pu hu
  refine ⟨h1, h2, ?_, ?_, ?_⟩
  · unfold getAllUsersScan
    rw [h3]
  · intro hnd
    rw [show getAllVenuesScan pv = scanFollow pv from rfl, h1]
    exact hnd
  · intro hnd
    rw [show getAllEventsScan pe = scanFollow pe from rfl, h2]
    exact hnd

/-- Witness for claim C6 at a concrete two-page scan for each reader. -/
theorem scanPaginationUnion_witness :
    getAllVenuesScan
        [⟨[⟨1, "A"⟩], some 7⟩, ⟨[⟨2, "B"⟩], none⟩]
      = [⟨1, "A"⟩, ⟨2, "B"⟩] ∧
    getAllEventsScan [⟨[⟨5, 1, "E"⟩], none⟩] = [⟨5, 1, "E"⟩] ∧
    getAllUsersScan [⟨[⟨some "u1"⟩], some 3⟩, ⟨[⟨some "u2"⟩], none⟩]
      = usersDictFrom [⟨some "u1"⟩, ⟨some "u2"⟩] := by
  have h := scanPaginationUnion
    [⟨[⟨1, "A"⟩], some 7⟩, ⟨[⟨2, "B"⟩], none⟩]
    [⟨[⟨5, 1, "E"⟩], none⟩]
    [⟨[⟨some "u1"⟩], some 3⟩, ⟨[⟨some "u2"⟩], none⟩]
    (by decide) (by decide) (by decide)
  exact ⟨h.1, h.2.1, h.2.2.1⟩

/-- delete_entity of delete-all.py records exactly one delete call of its
kind. -/
theorem deleteEntityK_calls (k : EntityKind) (id : Nat) (db : DB) :
    (deleteEntityK k id db).calls = db.calls ++ [deleteCallOf k id] := by
  cases k <;> rfl

/-- The delete loop of delete_all_entities records one delete call of its
kind per snapshot id, in snapshot order. -/
theorem foldDeleteK_calls (k : EntityKind) (l : List Nat) (db : DB) :
    (l.foldl (fun d id => deleteEntityK k id d) db).calls
      = db.calls ++ l.map (deleteCallOf k) := by
  induction l generalizing db with
  | nil => simp
  | cons a t ih =>
    simp only [List.foldl_cons]
    rw [ih, deleteEntityK_calls]
    simp [List.append_assoc]

/-- delete_all_entities records exactly the delete calls for the ids of its
snapshot, after the calls already recorded. -/
theorem deleteAllEntities_calls (k : EntityKind) (db : DB) :
    (deleteAllEntities k db).calls
      = db.calls ++ (entityIds k db).map (deleteCallOf k) :=
  foldDeleteK_calls k (entityIds k db) db

/-- Classifying the delete call of a kind gives back that kind. -/
theorem deleteKindOf_deleteCallOf (k : EntityKind) (id : Nat) :
    deleteKindOf (deleteCallOf k id) = some k := by
  cases k <;> rfl

/-- Extracting delete kinds from a block of same-kind delete calls. -/
theorem filterMap_deleteKindOf_map (k : EntityKind) (l : List Nat) :
    (l.map (deleteCallOf k)).filterMap deleteKindOf = l.map (fun _ => k) := by
  induction l with
  | nil => rfl
  | cons a t ih => simp [List.filterMap_cons, deleteKindOf_deleteCallOf k a, ih]

/-- Three homogeneous kind sections in event, room, venue order are sorted
by kind rank. -/
theorem pairwise_rank_sections (l1 l2 l3 : List EntityKind)
    (h1 : ∀ a ∈ l1, a = EntityKind.event)
    (h2 : ∀ a ∈ l2, a = EntityKind.room)
    (h3 : ∀ a ∈ l3, a = EntityKind.venue) :
    (l1 ++ (l2 ++ l3)).Pairwise (fun a b => kindRank a ≤ kindRank b) := by
  have homog : ∀ (l : List EntityKind) (k : EntityKind), (∀ a ∈ l, a = k) →
      l.Pairwise (fun a b => kindRank a ≤ kindRank b) := by
    intro l k hk
    induction l with
    | nil => exact List.Pairwise.nil
    | cons a t ih =>
      constructor
      · intro b hb
        rw [hk a (List.mem_cons_self a t), hk b (List.mem_cons_of_mem a hb)]
      · exact ih (fun x hx => hk x (List.mem_cons_of_mem a hx))
  rw [List.pairwise_append]
  refine ⟨homog l1 EntityKind.event h1, ?_, ?_⟩
  · rw [List.pairwise_append]
    refine ⟨homog l2 EntityKind.room h2, homog l3 EntityKind.venue h3, ?_⟩
    intro a ha b hb
    rw [h2 a ha, h3 b hb]
    decide
  · intro a ha b hb
    rw [h1 a ha]
    rcases List.mem_append.mp hb with hb2 | hb3
    · rw [h2 b hb2]; decide
    · rw [h3 b hb3]; decide

/-- Claim C2: in every run of cleanup_all_data, the issued delete calls are
sorted by entity kind in the order events, rooms, venues: no room or venue
delete precedes an event delete, and no venue delete precedes a room
delete. -/
theorem cleanupDeleteOrder (db : DB) (serverUp : Bool) (h : db.calls = []) :
    ((cleanupAllData serverUp db).db.calls.filterMap deleteKindOf).Pairwise
      (fun a b => kindRank a ≤ kindRank b) := by
  cases serverUp with
  | false =>
    show (({ db with calls := db.calls ++ [Call.probe] } : DB).calls.filterMap
      deleteKindOf).Pairwise _
    simp [h, deleteKindOf]
  | true =>
    show (((deleteAllEntities EntityKind.venue
        (deleteAllEntities EntityKind.room
          (deleteAllEntities EntityKind.event
            { db with calls := db.calls ++ [Call.probe] }))).calls).filterMap
        deleteKindOf).Pairwise _
    rw [deleteAllEntities_calls, deleteAllEntities_calls, deleteAllEntities_calls]
    rw [h]
    simp only [List.nil_append, List.append_assoc, List.filterMap_append,
      filterMap_deleteKindOf_map]
    have hprobe : ([Call.probe].filterMap deleteKindOf) = [] := rfl
    rw [hprobe]
    simp only [List.nil_append]
    apply pairwise_rank_sections
    · intro a ha
      rcases List.mem_map.mp ha with ⟨x, _, rfl⟩
      rfl
    · intro a ha
      rcases List.mem_map.mp ha with ⟨x, _, rfl⟩
      rfl
    · intro a ha
      rcases List.mem_map.mp ha with ⟨x, _, rfl⟩
      rfl

/-- Witness for claim C2 at a store with one venue, one room and one event. -/
theorem cleanupDeleteOrder_witness :
    ((cleanupAllData true
        ⟨[⟨0, "V"⟩], [⟨1, 0, "R"⟩], [⟨2, 0, "E"⟩], [], 3, []⟩).db.calls.filterMap
      deleteKindOf).Pairwise (fun a b => kindRank a ≤ kindRank b) :=
  cleanupDeleteOrder ⟨[⟨0, "V"⟩], [⟨1, 0, "R"⟩], [⟨2, 0, "E"⟩], [], 3, []⟩ true rfl

/-- The event-deletion loop of cleanup_venue_data: all components except the
event list and the call trace are preserved; the events evolve by the list
fold and one delete call per matching snapshot event is recorded. -/
theorem eventPass_spec (vid : Nat) (l : List Event) (db : DB) :
    l.foldl (fun d e => if e.venueId == vid then deleteEntityEvent e.eventId d else d) db
      = { db with
          events := l.foldl
            (fun cur e => if e.venueId == vid then
              cur.filter (fun x => x.eventId != e.eventId) else cur) db.events,
          calls := db.calls ++ (l.filter (fun e => e.venueId == vid)).map
            (fun e => Call.deleteEventCall e.eventId) } := by
  induction l generalizing db with
  | nil => simp
  | cons a t ih =>
    cases hc : a.venueId == vid with
    | true =>
      simp only [List.foldl_cons, hc, if_pos]
      rw [ih]
      simp [deleteEntityEvent, List.filter_cons, hc, List.append_assoc]
    | false =>
      simp only [List.foldl_cons, hc, if_neg]
      rw [ih]
      simp [List.filter_cons, hc]

/-- The room-deletion loop of cleanup_venue_data, analogous to the event
pass. -/
theorem roomPass_spec (vid : Nat) (l : List Room) (db : DB) :
    l.foldl (fun d r => if r.venueId == vid then deleteEntityRoom r.roomId d else d) db
      = { db with
          rooms := l.foldl
            (fun cur r => if r.venueId == vid then
              cur.filter (fun x => x.roomId != r.roomId) else cur) db.rooms,
          calls := db.calls ++ (l.filter (fun r => r.venueId == vid)).map
            (fun r => Call.deleteRoomCall r.roomId) } := by
  induction l generalizing db with
  | nil => simp
  | cons a t ih =>
    cases hc : a.venueId == vid with
    | true =>
      simp only [List.foldl_cons, hc, if_pos]
      rw [ih]
      simp [deleteEntityRoom, List.filter_cons, hc, List.append_assoc]
    | false =>
      simp only [List.foldl_cons, hc, if_neg]
      rw [ih]
      simp [List.filter_cons, hc]

/-- Full effect of cleanup_venue_data: the delete calls it records are the
events referencing the venue, then the rooms referencing it, then the venue
itself, and the store components evolve accordingly. -/
theorem cleanupVenueData_spec (vid : Nat) (db : DB) :
    cleanupVenueData vid db =
      { db with
        venues := db.venues.filter (fun v => v.venueId != vid),
        rooms := db.rooms.foldl
          (fun cur r => if r.venueId == vid then
            cur.filter (fun x => x.roomId != r.roomId) else cur) db.rooms,
        events := db.events.foldl
          (fun cur e => if e.venueId == vid then
            cur.filter (fun x => x.eventId != e.eventId) else cur) db.events,
        calls := db.calls
          ++ (db.events.filter (fun e => e.venueId == vid)).map
              (fun e => Call.deleteEventCall e.eventId)
          ++ (db.rooms.filter (fun r => r.venueId == vid)).map
              (fun r => Call.deleteRoomCall r.roomId)
          ++ [Call.deleteVenueCall vid] } := by
  unfold cleanupVenueData
  simp only [eventPass_spec, roomPass_spec, deleteEntityVenue]

/-- Claim C8: when a catalog venue is found by name, the seed orchestrator
records, in order: a delete for every event referencing the found id, then
a delete for every room referencing it, then the venue delete, then the
venue create. -/
theorem foundVenueReplace (db : DB) (name : String) (v : Venue)
    (h : findVenueByName name db = some v) :
    (processVenue db name).1.calls =
      db.calls
      ++ (db.events.filter (fun e => e.venueId == v.venueId)).map
          (fun e => Call.deleteEventCall e.eventId)
      ++ (db.rooms.filter (fun r => r.venueId == v.venueId)).map
          (fun r => Call.deleteRoomCall r.roomId)
      ++ [Call.deleteVenueCall v.venueId]
      ++ [Call.createVenueCall name] := by
  unfold processVenue
  rw [h]
  simp only [cleanupVenueData_spec, createVenue]

/-- Witness for claim C8 at a store holding one venue with a room and an
event referencing it. -/
theorem foundVenueReplace_witness :
    (processVenue ⟨[⟨0, "V"⟩], [⟨1, 0, "R"⟩], [⟨2, 0, "E"⟩], [], 3, []⟩ "V").1.calls =
      ([] : List Call)
      ++ (([⟨2, 0, "E"⟩] : List Event).filter (fun e => e.venueId == 0)).map
          (fun e => Call.deleteEventCall e.eventId)
      ++ (([⟨1, 0, "R"⟩] : List Room).filter (fun r => r.venueId == 0)).map
          (fun r => Call.deleteRoomCall r.roomId)
      ++ [Call.deleteVenueCall 0]
      ++ [Call.createVenueCall "V"] :=
  foundVenueReplace ⟨[⟨0, "V"⟩], [⟨1, 0, "R"⟩], [⟨2, 0, "E"⟩], [], 3, []⟩ "V"
    ⟨0, "V"⟩ (by decide)

/-- Any two members of a list of length at most one are equal. -/
theorem eqOfLenLeOne {α : Type} {l : List α} (h : l.length ≤ 1) {a b : α}
    (ha : a ∈ l) (hb : b ∈ l) : a = b := by
  match l, h with
  | [], _ => cases ha
  | [x], _ =>
    simp at ha hb
    rw [ha, hb]
  | x :: y :: t, h => simp at h

/-- Filtering away elements that cannot match does not change the first
match. -/
theorem find?_filter_of_imp {α : Type} (l : List α) (p q : α → Bool)
    (h : ∀ x ∈ l, p x = true → q x = true) :
    (l.filter q).find? p = l.find? p := by
  induction l with
  | nil => rfl
  | cons a t ih =>
    have iht := ih (fun x hx => h x (List.mem_cons_of_mem a hx))
    cases hq : q a with
    | true =>
      rw [List.filter_cons, hq, if_pos rfl]
      cases hp : p a with
      | true => rw [List.find?_cons_of_pos _ hp, List.find?_cons_of_pos _ hp]
      | false => rw [List.find?_cons_of_neg _ (by simp [hp]),
          List.find?_cons_of_neg _ (by simp [hp]), iht]
    | false =>
      have hp : p a = false := by
        cases hpa : p a with
        | true => rw [h a (List.mem_cons_self a t) hpa] at hq; cases hq
        | false => rfl
      rw [List.filter_cons, hq, if_neg (by simp),
        List.find?_cons_of_neg _ (by simp [hp]), iht]

/-- A delete-while-iterating loop over a snapshot with pairwise distinct
keys removes exactly the matching elements: folding deletions of matching
snapshot entries over the snapshot itself (behind an untouched prefix)
leaves the prefix and the non-matching entries. -/
theorem foldl_del_eq_filter {α : Type} (key : α → Nat) (p : α → Bool) :
    ∀ (l pre : List α), (l.map key).Nodup →
      (∀ b ∈ l, p b = true → ∀ a ∈ pre, key a ≠ key b) →
      l.foldl (fun cur b => if p b then cur.filter (fun x => key x != key b) else cur) (pre ++ l)
        = pre ++ l.filter (fun x => !(p x)) := by
  intro l
  induction l with
  | nil => intro pre _ _; simp
  | cons b t ih =>
    intro pre hnd hpre
    have hnd2 : (List.map key (b :: t)).Nodup := hnd
    rw [List.map_cons, List.nodup_cons] at hnd2
    have hbt : ∀ x ∈ t, key x ≠ key b := by
      intro x hx heq
      exact hnd2.1 (heq ▸ List.mem_map_of_mem key hx)
    have hndt : (t.map key).Nodup := hnd2.2
    cases hb : p b with
    | true =>
      have hstep : (pre ++ b :: t).filter (fun x => key x != key b) = pre ++ t := by
        rw [List.filter_append]
        congr 1
        · apply List.filter_eq_self.mpr
          intro a ha
          simpa using hpre b (List.mem_cons_self b t) hb a ha
        · rw [List.filter_cons]
          simp only [bne_self_eq_false, if_false]
          apply List.filter_eq_self.mpr
          intro a ha
          simpa using hbt a ha
      rw [List.foldl_cons]
      rw [show (if p b then (pre ++ b :: t).filter (fun x => key x != key b) else pre ++ b :: t) = pre ++ t by
        rw [hb, if_pos rfl, hstep]]
      rw [ih pre hndt (fun x hx hpx a ha => hpre x (List.mem_cons_of_mem b hx) hpx a ha)]
      rw [List.filter_cons]
      simp [hb]
    | false =>
      rw [List.foldl_cons]
      rw [show (if p b then (pre ++ b :: t).filter (fun x => key x != key b) else pre ++ b :: t) = pre ++ b :: t by
        rw [hb]; simp]
      rw [List.append_cons]
      rw [ih (pre ++ [b]) hndt ?hp]
      case hp =>
        intro x hx hpx a ha
        rcases List.mem_append.mp ha with h1 | h2
        · exact hpre x (List.mem_cons_of_mem b hx) hpx a h1
        · have : a = b := by simpa using h2
          rw [this]
          exact fun he => hbt x hx he.symm
      rw [List.filter_cons]
      simp [hb]

/-- The event-deletion fold of cleanup_venue_data removes exactly the events
referencing the venue, when event ids are pairwise distinct. -/
theorem foldDelEvents_eq (vid : Nat) (l : List Event)
    (hnd : (l.map (fun e => e.eventId)).Nodup) :
    l.foldl (fun cur e => if e.venueId == vid then
        cur.filter (fun x => x.eventId != e.eventId) else cur) l
      = l.filter (fun e => !(e.venueId == vid)) := by
  have h := foldl_del_eq_filter (fun e => e.eventId) (fun e => e.venueId == vid)
    l [] hnd (by intro b _ _ a ha; cases ha)
  simpa using h

/-- The room-deletion fold of cleanup_venue_data removes exactly the rooms
referencing the venue, when room ids are pairwise distinct. -/
theorem foldDelRooms_eq (vid : Nat) (l : List Room)
    (hnd : (l.map (fun r => r.roomId)).Nodup) :
    l.foldl (fun cur r => if r.venueId == vid then
        cur.filter (fun x => x.roomId != r.roomId) else cur) l
      = l.filter (fun r => !(r.venueId == vid)) := by
  have h := foldl_del_eq_filter (fun r => r.roomId) (fun r => r.venueId == vid)
    l [] hnd (by intro b _ _ a ha; cases ha)
  simpa using h

/-- Deleting the venue found by name from a store with distinct venue ids
and at most one venue of that name removes exactly the venues of that
name. -/
theorem filterById_eq_filterByName (db : DB) (name : String) (v : Venue)
    (hfind : findVenueByName name db = some v)
    (hnd : (db.venues.map (fun x => x.venueId)).Nodup)
    (huq : (db.venues.filter (fun x => x.venueName == name)).length ≤ 1) :
    db.venues.filter (fun x => x.venueId != v.venueId)
      = db.venues.filter (fun x => !(x.venueName == name)) := by
  have hfind2 : db.venues.find? (fun x => x.venueName == name) = some v := hfind
  have hvmem : v ∈ db.venues := List.mem_of_find?_eq_some hfind2
  have hvname0 := List.find?_some hfind2
  have hvname : (v.venueName == name) = true := by simpa using hvname0
  apply List.filter_congr
  intro x hx
  cases hxn : x.venueName == name with
  | true =>
    have hxv : x = v :=
      eqOfLenLeOne huq (List.mem_filter.mpr ⟨hx, hxn⟩)
        (List.mem_filter.mpr ⟨hvmem, hvname⟩)
    rw [hxv]
    simp
  | false =>
    have hne : x.venueId ≠ v.venueId := by
      intro he
      have : x = v := List.inj_on_of_nodup_map hnd hx hvmem he
      rw [this] at hxn
      rw [hvname] at hxn
      cases hxn
    simpa using hne

/-- Effect of one iteration of the venue loop on the store core: the venues
of that name are replaced by a single fresh one, and the rooms and events
referencing the found venue (if any) are removed. -/
theorem processVenue_spec (db : DB) (name : String)
    (huq : (db.venues.filter (fun v => v.venueName == name)).length ≤ 1)
    (hndV : (db.venues.map (fun v => v.venueId)).Nodup)
    (hndR : (db.rooms.map (fun r => r.roomId)).Nodup)
    (hndE : (db.events.map (fun e => e.eventId)).Nodup) :
    dbCore (processVenue db name).1 =
      (db.venues.filter (fun v => !(v.venueName == name)) ++ [⟨db.nextId, name⟩],
       db.rooms.filter (fun r => !(optIdIs (findVenueByName name db) r.venueId)),
       db.events.filter (fun e => !(optIdIs (findVenueByName name db) e.venueId)),
       db.nextId + 1) ∧
    (processVenue db name).2 = (name, db.nextId) := by
  cases hf : findVenueByName name db with
  | none =>
    have hnone := List.find?_eq_none.mp hf
    unfold processVenue
    rw [hf]
    simp only [createVenue, dbCore, optIdIs, Prod.mk.injEq]
    refine ⟨⟨?_, ?_, ?_, trivial⟩, trivial⟩
    · rw [List.filter_eq_self.mpr]
      intro a ha
      have := hnone a ha
      simpa using this
    · simp
    · simp
  | some v =>
    unfold processVenue
    rw [hf]
    simp only [cleanupVenueData_spec, createVenue, dbCore, optIdIs, Prod.mk.injEq]
    rw [foldDelEvents_eq v.venueId db.events hndE,
        foldDelRooms_eq v.venueId db.rooms hndR,
        filterById_eq_filterByName db name v hf hndV huq]
    exact ⟨⟨rfl, rfl, rfl, trivial⟩, trivial⟩

/-- Filtering by a conjunction is symmetric in the two tests. -/
theorem filter_and_comm {α : Type} (l : List α) (p q : α → Bool) :
    l.filter (fun a => p a && q a) = l.filter (fun a => q a && p a) :=
  List.filter_congr (fun x _ => Bool.and_comm (p x) (q x))

/-- Effect of the whole venue loop on the store core under a well-formed
store: both catalog venues are replaced by fresh instances, rooms and
events referencing the found old instances are removed, and created_venues
records the two fresh ids. -/
theorem venuesLoop_spec (db : DB) (h : WFdb db) :
    dbCore (createVenuesLoop db).1 =
      (db.venues.filter (fun v => !(v.venueName == monkeyPuzzleVenue) &&
          !(v.venueName == doubleTreeVenue)) ++ newVenues db.nextId,
       db.rooms.filter (fun r =>
          !(optIdIs (findVenueByName monkeyPuzzleVenue db) r.venueId) &&
          !(optIdIs (findVenueByName doubleTreeVenue db) r.venueId)),
       db.events.filter (fun e =>
          !(optIdIs (findVenueByName monkeyPuzzleVenue db) e.venueId) &&
          !(optIdIs (findVenueByName doubleTreeVenue db) e.venueId)),
       db.nextId + 2) ∧
    (createVenuesLoop db).2 =
      [(monkeyPuzzleVenue, db.nextId), (doubleTreeVenue, db.nextId + 1)] := by
  obtain ⟨hndV, hndR, hndE, hbV, hbR, hbE, huq⟩ := h
  have hMPDT : (monkeyPuzzleVenue == doubleTreeVenue) = false := by decide
  have hDTMP : (doubleTreeVenue == monkeyPuzzleVenue) = false := by decide
  have huqMP := huq monkeyPuzzleVenue (by simp [venuesData])
  have huqDT := huq doubleTreeVenue (by simp [venuesData])
  have p1 := processVenue_spec db monkeyPuzzleVenue huqMP hndV hndR hndE
  have hv1 : (processVenue db monkeyPuzzleVenue).1.venues =
      db.venues.filter (fun v => !(v.venueName == monkeyPuzzleVenue)) ++
        [⟨db.nextId, monkeyPuzzleVenue⟩] :=
    congrArg (fun t => t.1) p1.1
  have hr1 : (processVenue db monkeyPuzzleVenue).1.rooms =
      db.rooms.filter (fun r =>
        !(optIdIs (findVenueByName monkeyPuzzleVenue db) r.venueId)) :=
    congrArg (fun t => t.2.1) p1.1
  have he1 : (processVenue db monkeyPuzzleVenue).1.events =
      db.events.filter (fun e =>
        !(optIdIs (findVenueByName monkeyPuzzleVenue db) e.venueId)) :=
    congrArg (fun t => t.2.2.1) p1.1
  have hn1 : (processVenue db monkeyPuzzleVenue).1.nextId = db.nextId + 1 :=
    congrArg (fun t => t.2.2.2) p1.1
  have huqDT1 : ((processVenue db monkeyPuzzleVenue).1.venues.filter
      (fun x => x.venueName == doubleTreeVenue)).length ≤ 1 := by
    rw [hv1, List.filter_append]
    have hsingle : ([⟨db.nextId, monkeyPuzzleVenue⟩] : List Venue).filter
        (fun x => x.venueName == doubleTreeVenue) = [] := by
      simp [hMPDT]
    rw [hsingle, List.append_nil, List.filter_filter]
    refine le_trans (List.Sublist.length_le ?_) huqDT
    apply List.monotone_filter_right
    intro a ha
    exact (Bool.and_elim_left ha)
  have hndV1 : ((processVenue db monkeyPuzzleVenue).1.venues.map
      (fun v => v.venueId)).Nodup := by
    rw [hv1, List.map_append, List.nodup_append]
    refine ⟨?_, by simp, ?_⟩
    · exact hndV.sublist ((List.filter_sublist db.venues).map (fun v => v.venueId))
    · intro a ha
      rcases List.mem_map.mp ha with ⟨x, hx, rfl⟩
      have hlt := hbV x (List.mem_of_mem_filter hx)
      simp only [List.map_cons, List.map_nil, List.mem_cons, List.not_mem_nil]
      intro hcon
      rcases hcon with hcon | hcon
      · exact absurd hcon (Nat.ne_of_lt hlt)
      · cases hcon
  have hndR1 : ((processVenue db monkeyPuzzleVenue).1.rooms.map
      (fun r => r.roomId)).Nodup := by
    rw [hr1]
    exact hndR.sublist ((List.filter_sublist db.rooms).map (fun r => r.roomId))
  have hndE1 : ((processVenue db monkeyPuzzleVenue).1.events.map
      (fun e => e.eventId)).Nodup := by
    rw [he1]
    exact hndE.sublist ((List.filter_sublist db.events).map (fun e => e.eventId))
  have p2 := processVenue_spec (processVenue db monkeyPuzzleVenue).1
    doubleTreeVenue huqDT1 hndV1 hndR1 hndE1
  have hfindDT : findVenueByName doubleTreeVenue (processVenue db monkeyPuzzleVenue).1
      = findVenueByName doubleTreeVenue db := by
    unfold findVenueByName
    rw [hv1, List.find?_append]
    have h1 : (db.venues.filter (fun v => !(v.venueName == monkeyPuzzleVenue))).find?
        (fun x => x.venueName == doubleTreeVenue)
        = db.venues.find? (fun x => x.venueName == doubleTreeVenue) := by
      apply find?_filter_of_imp
      intro x _ hdt
      have hx : x.venueName = doubleTreeVenue := by
        exact eq_of_beq hdt
      rw [hx, hDTMP]
      rfl
    have h2 : ([⟨db.nextId, monkeyPuzzleVenue⟩] : List Venue).find?
        (fun x => x.venueName == doubleTreeVenue) = none := by
      simp [hMPDT]
    rw [h1, h2]
    simp
  have hloop1 : (createVenuesLoop db).1 =
      (processVenue (processVenue db monkeyPuzzleVenue).1 doubleTreeVenue).1 := by
    unfold createVenuesLoop venuesData
    rfl
  have hloop2 : (createVenuesLoop db).2 =
      [(processVenue db monkeyPuzzleVenue).2,
       (processVenue (processVenue db monkeyPuzzleVenue).1 doubleTreeVenue).2] := by
    unfold createVenuesLoop venuesData
    rfl
  constructor
  · rw [hloop1, p2.1]
    rw [hfindDT, hv1, hr1, he1, hn1]
    simp only [Prod.mk.injEq]
    refine ⟨?_, ?_, ?_, trivial⟩
    · rw [List.filter_append]
      have hsingle : ([⟨db.nextId, monkeyPuzzleVenue⟩] : List Venue).filter
          (fun v => !(v.venueName == doubleTreeVenue)) = [⟨db.nextId, monkeyPuzzleVenue⟩] := by
        simp [hMPDT]
      rw [hsingle, List.filter_filter]
      rw [filter_and_comm db.venues
        (fun v => !(v.venueName == doubleTreeVenue))
        (fun v => !(v.venueName == monkeyPuzzleVenue))]
      simp [newVenues]
    · rw [List.filter_filter]
      exact filter_and_comm db.rooms _ _
    · rw [List.filter_filter]
      exact filter_and_comm db.events _ _
  · rw [hloop2, p1.2, p2.2, hn1]

/-- Room-to-event assignment only touches the assignment list and the call
trace: venues, rooms, events and the id counter are unchanged. -/
theorem assignRooms_core4 (eid : Nat) (cr : List (Nat × String × String))
    (vn : String) (d : DB) :
    (assignRoomsToEvent eid cr vn d).venues = d.venues ∧
    (assignRoomsToEvent eid cr vn d).rooms = d.rooms ∧
    (assignRoomsToEvent eid cr vn d).events = d.events ∧
    (assignRoomsToEvent eid cr vn d).nextId = d.nextId := by
  induction cr generalizing d with
  | nil => exact ⟨rfl, rfl, rfl, rfl⟩
  | cons a t ih =>
    have hstep : assignRoomsToEvent eid (a :: t) vn d
        = assignRoomsToEvent eid t vn
            (if a.2.2 == vn then createEventRoom eid a.1 d else d) := by
      unfold assignRoomsToEvent
      rw [List.foldl_cons]
    rw [hstep]
    obtain ⟨w1, w2, w3, w4⟩ := ih (if a.2.2 == vn then createEventRoom eid a.1 d else d)
    have hv : (if a.2.2 == vn then createEventRoom eid a.1 d else d).venues = d.venues := by
      cases a.2.2 == vn <;> rfl
    have hr : (if a.2.2 == vn then createEventRoom eid a.1 d else d).rooms = d.rooms := by
      cases a.2.2 == vn <;> rfl
    have he : (if a.2.2 == vn then createEventRoom eid a.1 d else d).events = d.events := by
      cases a.2.2 == vn <;> rfl
    have hn : (if a.2.2 == vn then createEventRoom eid a.1 d else d).nextId = d.nextId := by
      cases a.2.2 == vn <;> rfl
    exact ⟨w1.trans hv, w2.trans hr, w3.trans he, w4.trans hn⟩

/-- Effect of the room loop on the store core when both catalog venues were
created: the nine catalog rooms are appended with consecutive fresh ids, and
created_rooms lists them with their venue names. -/
theorem roomsLoop_spec (s : DB) (a b : Nat) :
    dbCore (createRoomsLoop s [(monkeyPuzzleVenue, a), (doubleTreeVenue, b)]).1 =
      (s.venues,
       s.rooms ++
         [⟨s.nextId, a, "Main Area"⟩, ⟨s.nextId + 1, a, "Back Room"⟩,
          ⟨s.nextId + 2, b, "Chilworth Suite"⟩, ⟨s.nextId + 3, b, "Garden Suite"⟩,
          ⟨s.nextId + 4, b, "Adams Suite"⟩, ⟨s.nextId + 5, b, "Austen Suite"⟩,
          ⟨s.nextId + 6, b, "Hardy Suite"⟩, ⟨s.nextId + 7, b, "The Boardroom"⟩,
          ⟨s.nextId + 8, b, "Frome Suite"⟩],
       s.events, s.nextId + 9) ∧
    (createRoomsLoop s [(monkeyPuzzleVenue, a), (doubleTreeVenue, b)]).2 =
      [(s.nextId, "Main Area", monkeyPuzzleVenue),
       (s.nextId + 1, "Back Room", monkeyPuzzleVenue),
       (s.nextId + 2, "Chilworth Suite", doubleTreeVenue),
       (s.nextId + 3, "Garden Suite", doubleTreeVenue),
       (s.nextId + 4, "Adams Suite", doubleTreeVenue),
       (s.nextId + 5, "Austen Suite", doubleTreeVenue),
       (s.nextId + 6, "Hardy Suite", doubleTreeVenue),
       (s.nextId + 7, "The Boardroom", doubleTreeVenue),
       (s.nextId + 8, "Frome Suite", doubleTreeVenue)] := by
  have hDTMP : (doubleTreeVenue == monkeyPuzzleVenue) = false := by decide
  constructor <;>
    simp [createRoomsLoop, roomsData, List.lookup, createRoom, dbCore, hDTMP,
      List.append_assoc, Nat.add_assoc]

/-- Effect of the event loop on the store core when both catalog venues were
created: the six catalog events are appended with consecutive fresh ids;
room assignments do not touch the core. -/
theorem eventsLoop_spec (s : DB) (a b : Nat) (cr : List (Nat × String × String)) :
    dbCore (createEventsLoop s [(monkeyPuzzleVenue, a), (doubleTreeVenue, b)] cr).1 =
      (s.venues, s.rooms,
       s.events ++
         [⟨s.nextId, a, "Board Game Championship - Monkey Puzzle"⟩,
          ⟨s.nextId + 1, a, "Board Game Night - Monkey Puzzle"⟩,
          ⟨s.nextId + 2, a, "Clocktower (Beginner Friendly)"⟩,
          ⟨s.nextId + 3, a, "Clocktower (Intermediate+)"⟩,
          ⟨s.nextId + 4, b, "Clockshire \x2725"⟩,
          ⟨s.nextId + 5, b, "Clockshire \x2726"⟩],
       s.nextId + 6) := by
  have hDTMP : (doubleTreeVenue == monkeyPuzzleVenue) = false := by decide
  have hDTMPne : ¬(doubleTreeVenue = monkeyPuzzleVenue) := by decide
  simp [createEventsLoop, eventsData, List.lookup, createEvent, dbCore, hDTMP,
    hDTMPne, assignRooms_core4, List.append_assoc, Nat.add_assoc]

/-- Characterization of one full seed run over a well-formed store: the
catalog venues are replaced by fresh instances with ids nextId and
nextId + 1, rooms and events referencing the found old instances disappear,
the nine catalog rooms and six catalog events are appended with the
subsequent fresh ids, and the id counter advances by 17. -/
theorem populate_core (db : DB) (h : WFdb db) :
    dbCore (populateData db) =
      (db.venues.filter (fun v => !(v.venueName == monkeyPuzzleVenue) &&
          !(v.venueName == doubleTreeVenue)) ++ newVenues db.nextId,
       db.rooms.filter (fun r =>
          !(optIdIs (findVenueByName monkeyPuzzleVenue db) r.venueId) &&
          !(optIdIs (findVenueByName doubleTreeVenue db) r.venueId)) ++
         newRooms db.nextId,
       db.events.filter (fun e =>
          !(optIdIs (findVenueByName monkeyPuzzleVenue db) e.venueId) &&
          !(optIdIs (findVenueByName doubleTreeVenue db) e.venueId)) ++
         newEvents db.nextId,
       db.nextId + 17) := by
  have hv := venuesLoop_spec db h
  have hcv : (createVenuesLoop db).2 =
      [(monkeyPuzzleVenue, db.nextId), (doubleTreeVenue, db.nextId + 1)] := hv.2
  have hvv : (createVenuesLoop db).1.venues =
      db.venues.filter (fun v => !(v.venueName == monkeyPuzzleVenue) &&
        !(v.venueName == doubleTreeVenue)) ++ newVenues db.nextId :=
    congrArg (fun t => t.1) hv.1
  have hvr : (createVenuesLoop db).1.rooms =
      db.rooms.filter (fun r =>
        !(optIdIs (findVenueByName monkeyPuzzleVenue db) r.venueId) &&
        !(optIdIs (findVenueByName doubleTreeVenue db) r.venueId)) :=
    congrArg (fun t => t.2.1) hv.1
  have hve : (createVenuesLoop db).1.events =
      db.events.filter (fun e =>
        !(optIdIs (findVenueByName monkeyPuzzleVenue db) e.venueId) &&
        !(optIdIs (findVenueByName doubleTreeVenue db) e.venueId)) :=
    congrArg (fun t => t.2.2.1) hv.1
  have hvn : (createVenuesLoop db).1.nextId = db.nextId + 2 :=
    congrArg (fun t => t.2.2.2) hv.1
  have hpop : populateData db =
      (createEventsLoop
        (createRoomsLoop (createVenuesLoop db).1 (createVenuesLoop db).2).1
        (createVenuesLoop db).2
        (createRoomsLoop (createVenuesLoop db).1 (createVenuesLoop db).2).2).1 := rfl
  rw [hpop, hcv]
  have hr := roomsLoop_spec (createVenuesLoop db).1 db.nextId (db.nextId + 1)
  have hrv : (createRoomsLoop (createVenuesLoop db).1
      [(monkeyPuzzleVenue, db.nextId), (doubleTreeVenue, db.nextId + 1)]).1.venues =
      (createVenuesLoop db).1.venues :=
    congrArg (fun t => t.1) hr.1
  have hrr : (createRoomsLoop (createVenuesLoop db).1
      [(monkeyPuzzleVenue, db.nextId), (doubleTreeVenue, db.nextId + 1)]).1.rooms =
      (createVenuesLoop db).1.rooms ++
        [⟨(createVenuesLoop db).1.nextId, db.nextId, "Main Area"⟩,
         ⟨(createVenuesLoop db).1.nextId + 1, db.nextId, "Back Room"⟩,
         ⟨(createVenuesLoop db).1.nextId + 2, db.nextId + 1, "Chilworth Suite"⟩,
         ⟨(createVenuesLoop db).1.nextId + 3, db.nextId + 1, "Garden Suite"⟩,
         ⟨(createVenuesLoop db).1.nextId + 4, db.nextId + 1, "Adams Suite"⟩,
         ⟨(createVenuesLoop db).1.nextId + 5, db.nextId + 1, "Austen Suite"⟩,
         ⟨(createVenuesLoop db).1.nextId + 6, db.nextId + 1, "Hardy Suite"⟩,
         ⟨(createVenuesLoop db).1.nextId + 7, db.nextId + 1, "The Boardroom"⟩,
         ⟨(createVenuesLoop db).1.nextId + 8, db.nextId + 1, "Frome Suite"⟩] :=
    congrArg (fun t => t.2.1) hr.1
  have hre : (createRoomsLoop (createVenuesLoop db).1
      [(monkeyPuzzleVenue, db.nextId), (doubleTreeVenue, db.nextId + 1)]).1.events =
      (createVenuesLoop db).1.events :=
    congrArg (fun t => t.2.2.1) hr.1
  have hrn : (createRoomsLoop (createVenuesLoop db).1
      [(monkeyPuzzleVenue, db.nextId), (doubleTreeVenue, db.nextId + 1)]).1.nextId =
      (createVenuesLoop db).1.nextId + 9 :=
    congrArg (fun t => t.2.2.2) hr.1
  rw [eventsLoop_spec]
  rw [hrv, hrr, hre, hrn, hvv, hvr, hve, hvn]
  simp [newVenues, newRooms, newEvents, Nat.add_assoc, Prod.mk.injEq,
    List.append_assoc]

/-- A store of post-run shape is well formed. -/
theorem staleShape_WF (db : DB) (V : List Venue) (R : List Room)
    (E : List Event) (n : Nat) (h : StaleShape db V R E n) : WFdb db := by
  obtain ⟨hveq, hreq, heeq, hneq, hVname, hVb, hRb, hEb, hVnd, hRnd, hEnd⟩ := h
  have hMPDT : (monkeyPuzzleVenue == doubleTreeVenue) = false := by decide
  have hDTMP : (doubleTreeVenue == monkeyPuzzleVenue) = false := by decide
  refine ⟨?_, ?_, ?_, ?_, ?_, ?_, ?_⟩
  · rw [hveq, List.map_append, List.nodup_append]
    refine ⟨hVnd, by simp [newVenues], ?_⟩
    intro x hx
    rcases List.mem_map.mp hx with ⟨v, hv, rfl⟩
    have := hVb v hv
    simp [newVenues]
    omega
  · rw [hreq, List.map_append, List.nodup_append]
    refine ⟨hRnd, by simp [newRooms], ?_⟩
    intro x hx
    rcases List.mem_map.mp hx with ⟨r, hr, rfl⟩
    have := (hRb r hr).1
    simp [newRooms]
    omega
  · rw [heeq, List.map_append, List.nodup_append]
    refine ⟨hEnd, by simp [newEvents], ?_⟩
    intro x hx
    rcases List.mem_map.mp hx with ⟨e, he, rfl⟩
    have := (hEb e he).1
    simp [newEvents]
    omega
  · rw [hveq, hneq]
    intro v hv
    rcases List.mem_append.mp hv with h1 | h2
    · have := hVb v h1
      omega
    · have hid : v.venueId ∈ (newVenues n).map (fun v => v.venueId) :=
        List.mem_map_of_mem _ h2
      simp [newVenues] at hid
      omega
  · rw [hreq, hneq]
    intro r hr
    rcases List.mem_append.mp hr with h1 | h2
    · have := hRb r h1
      omega
    · have hid : r.roomId ∈ (newRooms n).map (fun r => r.roomId) :=
        List.mem_map_of_mem _ h2
      have hvid : r.venueId ∈ (newRooms n).map (fun r => r.venueId) :=
        List.mem_map_of_mem _ h2
      simp [newRooms] at hid hvid
      omega
  · rw [heeq, hneq]
    intro e he
    rcases List.mem_append.mp he with h1 | h2
    · have := hEb e h1
      omega
    · have hid : e.eventId ∈ (newEvents n).map (fun e => e.eventId) :=
        List.mem_map_of_mem _ h2
      have hvid : e.venueId ∈ (newEvents n).map (fun e => e.venueId) :=
        List.mem_map_of_mem _ h2
      simp [newEvents] at hid hvid
      omega
  · intro name hname
    rw [hveq, List.filter_append]
    have hname2 : name = monkeyPuzzleVenue ∨ name = doubleTreeVenue := by
      simpa [venuesData] using hname
    rcases hname2 with rfl | rfl
    · have hVf : V.filter (fun v => v.venueName == monkeyPuzzleVenue) = [] := by
        apply List.filter_eq_nil_iff.mpr
        intro v hv
        simp [(hVname v hv).1]
      rw [hVf]
      simp [newVenues, hDTMP]
    · have hVf : V.filter (fun v => v.venueName == doubleTreeVenue) = [] := by
        apply List.filter_eq_nil_iff.mpr
        intro v hv
        simp [(hVname v hv).2]
      rw [hVf]
      simp [newVenues, hMPDT]

/-- In a post-run-shaped store the Monkey Puzzle lookup finds the fresh
instance. -/
theorem staleShape_findMP (db : DB) (V : List Venue) (R : List Room)
    (E : List Event) (n : Nat) (h : StaleShape db V R E n) :
    findVenueByName monkeyPuzzleVenue db = some ⟨n, monkeyPuzzleVenue⟩ := by
  obtain ⟨hveq, _, _, _, hVname, _⟩ := h
  unfold findVenueByName
  rw [hveq, List.find?_append]
  have h1 : V.find? (fun v => v.venueName == monkeyPuzzleVenue) = none :=
    List.find?_eq_none.mpr (fun x hx => by simp [(hVname x hx).1])
  rw [h1]
  simp [newVenues]

/-- In a post-run-shaped store the DoubleTree lookup finds the fresh
instance. -/
theorem staleShape_findDT (db : DB) (V : List Venue) (R : List Room)
    (E : List Event) (n : Nat) (h : StaleShape db V R E n) :
    findVenueByName doubleTreeVenue db = some ⟨n + 1, doubleTreeVenue⟩ := by
  obtain ⟨hveq, _, _, _, hVname, _⟩ := h
  have hMPDT : (monkeyPuzzleVenue == doubleTreeVenue) = false := by decide
  unfold findVenueByName
  rw [hveq, List.find?_append]
  have h1 : V.find? (fun v => v.venueName == doubleTreeVenue) = none :=
    List.find?_eq_none.mpr (fun x hx => by simp [(hVname x hx).2])
  rw [h1]
  simp [newVenues, hMPDT]

/-- Running the seed over a post-run-shaped store leaves the stale records
alone, replaces the catalog records by fresh ones at the advanced counter,
and advances the counter by another 17. -/
theorem staleShape_populate (db : DB) (V : List Venue) (R : List Room)
    (E : List Event) (n : Nat) (h : StaleShape db V R E n) :
    dbCore (populateData db) =
      (V ++ newVenues (n + 17), R ++ newRooms (n + 17),
       E ++ newEvents (n + 17), n + 34) := by
  have hwf := staleShape_WF db V R E n h
  have hMP := staleShape_findMP db V R E n h
  have hDT := staleShape_findDT db V R E n h
  obtain ⟨hveq, hreq, heeq, hneq, hVname, hVb, hRb, hEb, hVnd, hRnd, hEnd⟩ := h
  rw [populate_core db hwf, hMP, hDT, hveq, hreq, heeq, hneq]
  have hn1n : ((n + 1 : Nat) == n) = false := by
    rw [beq_eq_false_iff_ne]
    omega
  simp only [Prod.mk.injEq, optIdIs]
  refine ⟨?_, ?_, ?_, trivial⟩
  · rw [List.filter_append]
    have hVf : V.filter (fun v => !(v.venueName == monkeyPuzzleVenue) &&
        !(v.venueName == doubleTreeVenue)) = V :=
      List.filter_eq_self.mpr (fun v hv => by
        rw [(hVname v hv).1, (hVname v hv).2]
        rfl)
    have hNf : (newVenues n).filter (fun v => !(v.venueName == monkeyPuzzleVenue) &&
        !(v.venueName == doubleTreeVenue)) = [] := by
      have hDTMP : (doubleTreeVenue == monkeyPuzzleVenue) = false := by decide
      simp [newVenues, hDTMP]
    rw [hVf, hNf, List.append_nil]
  · rw [List.filter_append]
    have hRf : R.filter (fun r => !(r.venueId == n) && !(r.venueId == n + 1)) = R :=
      List.filter_eq_self.mpr (fun r hr => by
        have hb := (hRb r hr).2
        have e1 : (r.venueId == n) = false := by
          rw [beq_eq_false_iff_ne]
          omega
        have e2 : (r.venueId == n + 1) = false := by
          rw [beq_eq_false_iff_ne]
          omega
        rw [e1, e2]
        rfl)
    have hNf : (newRooms n).filter (fun r => !(r.venueId == n) && !(r.venueId == n + 1)) = [] := by
      simp [newRooms, hn1n]
    rw [hRf, hNf, List.append_nil]
  · rw [List.filter_append]
    have hEf : E.filter (fun e => !(e.venueId == n) && !(e.venueId == n + 1)) = E :=
      List.filter_eq_self.mpr (fun e he => by
        have hb := (hEb e he).2
        have e1 : (e.venueId == n) = false := by
          rw [beq_eq_false_iff_ne]
          omega
        have e2 : (e.venueId == n + 1) = false := by
          rw [beq_eq_false_iff_ne]
          omega
        rw [e1, e2]
        rfl)
    have hNf : (newEvents n).filter (fun e => !(e.venueId == n) && !(e.venueId == n + 1)) = [] := by
      simp [newEvents, hn1n]
    rw [hEf, hNf, List.append_nil]

/-- One seed run over a well-formed store produces a post-run-shaped store
whose stale part consists of the surviving old records. -/
theorem populate_staleShape (db : DB) (h : WFdb db) :
    StaleShape (populateData db)
      (db.venues.filter (fun v => !(v.venueName == monkeyPuzzleVenue) &&
        !(v.venueName == doubleTreeVenue)))
      (db.rooms.filter (fun r =>
        !(optIdIs (findVenueByName monkeyPuzzleVenue db) r.venueId) &&
        !(optIdIs (findVenueByName doubleTreeVenue db) r.venueId)))
      (db.events.filter (fun e =>
        !(optIdIs (findVenueByName monkeyPuzzleVenue db) e.venueId) &&
        !(optIdIs (findVenueByName doubleTreeVenue db) e.venueId)))
      db.nextId := by
  have hc := populate_core db h
  simp only [dbCore, Prod.mk.injEq] at hc
  obtain ⟨h1, h2, h3, h4⟩ := hc
  obtain ⟨hndV, hndR, hndE, hbV, hbR, hbE, huq⟩ := h
  refine ⟨h1, h2, h3, h4, ?_, ?_, ?_, ?_, ?_, ?_, ?_⟩
  · intro v hv
    have hm := List.mem_filter.mp hv
    have h2 := hm.2
    rw [Bool.and_eq_true] at h2
    have ha := h2.1
    have hb := h2.2
    rw [Bool.not_eq_true'] at ha hb
    exact ⟨ha, hb⟩
  · intro v hv
    exact hbV v (List.mem_of_mem_filter hv)
  · intro r hr
    exact hbR r (List.mem_of_mem_filter hr)
  · intro e he
    exact hbE e (List.mem_of_mem_filter he)
  · exact hndV.sublist ((List.filter_sublist db.venues).map (fun v => v.venueId))
  · exact hndR.sublist ((List.filter_sublist db.rooms).map (fun r => r.roomId))
  · exact hndE.sublist ((List.filter_sublist db.events).map (fun e => e.eventId))

/-- A post-run-shaped store contains exactly one instance of each catalog
venue, room and event. -/
theorem staleShape_catalogOnce (db : DB) (V : List Venue) (R : List Room)
    (E : List Event) (n : Nat) (h : StaleShape db V R E n) :
    catalogOnce db = true := by
  obtain ⟨hveq, hreq, heeq, hneq, hVname, hVb, hRb, hEb, hVnd, hRnd, hEnd⟩ := h
  have hMPDT : (monkeyPuzzleVenue == doubleTreeVenue) = false := by decide
  have hDTMP : (doubleTreeVenue == monkeyPuzzleVenue) = false := by decide
  have hn1n : ((n + 1 : Nat) == n) = false := by
    rw [beq_eq_false_iff_ne]
    omega
  have hnn1 : ((n : Nat) == n + 1) = false := by
    rw [beq_eq_false_iff_ne]
    omega
  have hfMP : (V ++ newVenues n).filter (fun v => v.venueName == monkeyPuzzleVenue)
      = [⟨n, monkeyPuzzleVenue⟩] := by
    rw [List.filter_append,
      List.filter_eq_nil_iff.mpr (fun v hv => by simp [(hVname v hv).1])]
    simp [newVenues, hDTMP]
  have hfDT : (V ++ newVenues n).filter (fun v => v.venueName == doubleTreeVenue)
      = [⟨n + 1, doubleTreeVenue⟩] := by
    rw [List.filter_append,
      List.filter_eq_nil_iff.mpr (fun v hv => by simp [(hVname v hv).2])]
    simp [newVenues, hMPDT]
  have hRn : (R ++ newRooms n).filter (fun r => r.venueId == n)
      = [⟨n + 2, n, "Main Area"⟩, ⟨n + 3, n, "Back Room"⟩] := by
    rw [List.filter_append,
      List.filter_eq_nil_iff.mpr (fun r hr => by
        have := (hRb r hr).2
        simp [beq_eq_false_iff_ne]
        omega)]
    simp [newRooms, hn1n]
  have hRn1 : (R ++ newRooms n).filter (fun r => r.venueId == n + 1)
      = [⟨n + 4, n + 1, "Chilworth Suite"⟩, ⟨n + 5, n + 1, "Garden Suite"⟩,
         ⟨n + 6, n + 1, "Adams Suite"⟩, ⟨n + 7, n + 1, "Austen Suite"⟩,
         ⟨n + 8, n + 1, "Hardy Suite"⟩, ⟨n + 9, n + 1, "The Boardroom"⟩,
         ⟨n + 10, n + 1, "Frome Suite"⟩] := by
    rw [List.filter_append,
      List.filter_eq_nil_iff.mpr (fun r hr => by
        have := (hRb r hr).2
        simp [beq_eq_false_iff_ne]
        omega)]
    simp [newRooms, hnn1]
  have hEn : (E ++ newEvents n).filter (fun e => e.venueId == n)
      = [⟨n + 11, n, "Board Game Championship - Monkey Puzzle"⟩,
         ⟨n + 12, n, "Board Game Night - Monkey Puzzle"⟩,
         ⟨n + 13, n, "Clocktower (Beginner Friendly)"⟩,
         ⟨n + 14, n, "Clocktower (Intermediate+)"⟩] := by
    rw [List.filter_append,
      List.filter_eq_nil_iff.mpr (fun e he => by
        have := (hEb e he).2
        simp [beq_eq_false_iff_ne]
        omega)]
    simp [newEvents, hn1n]
  have hEn1 : (E ++ newEvents n).filter (fun e => e.venueId == n + 1)
      = [⟨n + 15, n + 1, "Clockshire \x2725"⟩,
         ⟨n + 16, n + 1, "Clockshire \x2726"⟩] := by
    rw [List.filter_append,
      List.filter_eq_nil_iff.mpr (fun e he => by
        have := (hEb e he).2
        simp [beq_eq_false_iff_ne]
        omega)]
    simp [newEvents, hnn1]
  unfold catalogOnce catalogOnceCore dbCore venuesData
  rw [hveq, hreq, heeq]
  simp only [List.all_cons, List.all_nil, Bool.and_true]
  rw [hfMP, hfDT]
  simp only [hRn, hRn1, hEn, hEn1, List.map_cons, List.map_nil]
  decide

/-- Claim C1: over a well-formed store (pairwise distinct ids, all ids and
references below the id counter, at most one venue per catalog name),
running the seed orchestrator twice in succession yields the same final
venue, room and event counts as running it once, and after each run exactly
one instance of each catalog venue, room and event exists. -/
theorem seedIdempotent (db : DB) (h : WFdb db) :
    dbCounts (populateData (populateData db)) = dbCounts (populateData db) ∧
    catalogOnce (populateData db) = true ∧
    catalogOnce (populateData (populateData db)) = true := by
  have hs1 := populate_staleShape db h
  have hco1 := staleShape_catalogOnce (populateData db) _ _ _ db.nextId hs1
  have hrun2 := staleShape_populate (populateData db) _ _ _ db.nextId hs1
  simp only [dbCore, Prod.mk.injEq] at hrun2
  obtain ⟨g1, g2, g3, g4⟩ := hrun2
  obtain ⟨h1, h2, h3, h4, hVname, hVb, hRb, hEb, hVnd, hRnd, hEnd⟩ := hs1
  have hs2 : StaleShape (populateData (populateData db))
      (db.venues.filter (fun v => !(v.venueName == monkeyPuzzleVenue) &&
        !(v.venueName == doubleTreeVenue)))
      (db.rooms.filter (fun r =>
        !(optIdIs (findVenueByName monkeyPuzzleVenue db) r.venueId) &&
        !(optIdIs (findVenueByName doubleTreeVenue db) r.venueId)))
      (db.events.filter (fun e =>
        !(optIdIs (findVenueByName monkeyPuzzleVenue db) e.venueId) &&
        !(optIdIs (findVenueByName doubleTreeVenue db) e.venueId)))
      (db.nextId + 17) := by
    refine ⟨g1, g2, g3, g4.trans (by omega), hVname, ?_, ?_, ?_, hVnd, hRnd, hEnd⟩
    · intro v hv
      have := hVb v hv
      omega
    · intro r hr
      have := hRb r hr
      omega
    · intro e he
      have := hEb e he
      omega
  have hco2 := staleShape_catalogOnce (populateData (populateData db)) _ _ _
    (db.nextId + 17) hs2
  refine ⟨?_, hco1, hco2⟩
  unfold dbCounts
  rw [g1, g2, g3, h1, h2, h3]
  simp [newVenues, newRooms, newEvents]

/-- Witness for claim C1 at the empty store. -/
theorem seedIdempotent_witness :
    WFdb dbEmpty ∧
    (dbCounts (populateData (populateData dbEmpty)) = dbCounts (populateData dbEmpty) ∧
     catalogOnce (populateData dbEmpty) = true ∧
     catalogOnce (populateData (populateData dbEmpty)) = true) :=
  ⟨by decide, seedIdempotent dbEmpty (by decide)⟩

end GamePlanner
